import Mathlib

/-!
Shallow embedding of the `errors` Go package (stack-traced, comparable errors).

The embedding models:
* pointer identity of heap allocations by a `Nat` address drawn from an
  allocation counter, since Go's `==` on interfaces holding pointers compares
  addresses;
* the package-global `errid` counter (initialized to 1 in the source) used by
  `newid()`;
* `fmt.Errorf(format, args...)` as an allocation of a fresh "plain" error value
  carrying the format string and the (pre-rendered) argument list — the message
  text itself is never inspected by the identity algorithm;
* the captured stack abstractly, recording only the skip argument passed to
  `runtime.Callers` (the stack contents are runtime state outside the model).

Functions that allocate or consume ids thread an explicit state `St`.
-/

namespace errors

/-- Process-wide mutable state: the next free heap address (modelling Go's
allocator, used for pointer identity) and the global `errid` counter
(source: `var errid = 1`). -/
structure St where
  nextAddr : Nat
  errid : Nat
deriving Repr, DecidableEq

/-- The state at process start: `errid` is initialized to 1 in the source. -/
def initSt : St := ⟨0, 1⟩

/-- Embeds `newid()` (lines 71-75): returns the current `errid` and increments it. -/
def newid (st : St) : Nat × St := (st.errid, ⟨st.nextAddr, st.errid + 1⟩)

mutual
/-- Embeds the Go struct `Error` (lines 79-85): `Err error`, a captured stack,
a `prefix` string and an `id` int. `addr` models the pointer identity of the
`*Error` allocation; `stackSkip` records the argument given to
`runtime.Callers`, abstracting the captured stack. The lazily resolved
`frames` cache is derived data and is not modelled. -/
inductive Error : Type where
  | mk (addr : Nat) (Err : ErrVal) (stackSkip : Nat) (pfx : String) (id : Nat)

/-- Go `error` interface values that occur with this library:
* `nil` — the nil interface;
* `plain addr format args` — an error produced by `fmt.Errorf(format, args...)`
  (a fresh pointer each call, so it carries an address);
* `errp e` — an interface holding a (non-nil) `*Error`;
* `errsp addr elems` — an interface holding a non-nil `*Errors` whose slice
  holds `elems` (a typed-nil `*Errors` inside an interface is not modelled:
  the methods that would receive one dereference it and panic);
* `errf fid fpattern` — an `Errf` closure produced by `Newf`, closing over its
  pattern and factory id. -/
inductive ErrVal : Type where
  | nil
  | plain (addr : Nat) (format : String) (args : List String)
  | errp (e : Error)
  | errsp (addr : Nat) (elems : List Error)
  | errf (fid : Nat) (fpattern : String)
end

/-- Field accessor for `Error.addr`. -/
def Error.addr : Error → Nat
  | .mk a _ _ _ _ => a

/-- Field accessor for `Error.Err`. -/
def Error.Err : Error → ErrVal
  | .mk _ e _ _ _ => e

/-- Field accessor for the modelled stack skip. -/
def Error.stackSkip : Error → Nat
  | .mk _ _ s _ _ => s

/-- Field accessor for `Error.prefix` (named `pfx` here). -/
def Error.pfx : Error → String
  | .mk _ _ _ p _ => p

/-- Field accessor for `Error.id`. -/
def Error.id : Error → Nat
  | .mk _ _ _ _ i => i

/-- `e.id = i` assignment (used by the closure returned by `Newf`, line 257). -/
def Error.setId : Error → Nat → Error
  | .mk a e s p _, i => .mk a e s p i

/-- Embeds the Go struct `Errors` (third file, lines 387-390): a slice of
`*Error` with the pointer identity of the `*Errors` allocation. -/
structure Errors where
  addr : Nat
  errs : List Error

/-- Embeds the closure `Errf` produced by `Newf` (line 253): it closes over
the format string and the factory id allocated at `Newf` time. -/
structure Errf where
  fpattern : String
  fid : Nat

/-- A Go `interface{}` argument: either a value of (or convertible to) the
`error` interface, or any non-error value, kept as its `%v` rendering. -/
inductive GoAny where
  | errv (e : ErrVal)
  | nonError (v : String)

/-- Embeds `fmt.Errorf(format, args...)`: allocates a fresh error value
(compared by pointer in Go, hence the fresh address). -/
def fmtErrorf (format : String) (args : List String) (st : St) : ErrVal × St :=
  (.plain st.nextAddr format args, ⟨st.nextAddr + 1, st.errid⟩)

/-- Embeds Go interface equality `e == original` on `error` values
(line 161): equal dynamic types and equal pointers. Two `Errf` values are
uncomparable func values in Go (comparing them panics); that case is
unreachable from every claim below, and is mapped to `false` here. -/
def goEq : ErrVal → ErrVal → Bool
  | .nil, .nil => true
  | .plain a _ _, .plain b _ _ => a == b
  | .errp g1, .errp g2 => g1.addr == g2.addr
  | .errsp a _, .errsp b _ => a == b
  | _, _ => false

/-- Embeds `NewError` (lines 91-108). Note there is no `*Error` case in its
type switch: an `*Error` argument matches `case error:` and is wrapped again.
The struct literal evaluates `id: newid()` and is then allocated. -/
def NewError (e : GoAny) (st : St) : Error × St :=
  match e with
  | .errv .nil =>
      -- a nil interface matches no case of the type switch: default branch,
      -- err = fmt.Errorf("%v", nil)
      let r := fmtErrorf "%v" ["<nil>"] st
      let i := newid r.2
      (.mk i.2.nextAddr r.1 2 "" i.1, ⟨i.2.nextAddr + 1, i.2.errid⟩)
  | .errv v =>
      -- case error: err = e
      let i := newid st
      (.mk i.2.nextAddr v 2 "" i.1, ⟨i.2.nextAddr + 1, i.2.errid⟩)
  | .nonError s =>
      -- default: err = fmt.Errorf("%v", e)
      let r := fmtErrorf "%v" [s] st
      let i := newid r.2
      (.mk i.2.nextAddr r.1 2 "" i.1, ⟨i.2.nextAddr + 1, i.2.errid⟩)

/-- Embeds `Wrap` (lines 114-133). `case *Error:` returns the argument
unchanged (no allocation, no id consumed); otherwise a new `Error` is built
exactly as in `NewError` but with `runtime.Callers(2+skip, ...)`. -/
def Wrap (e : GoAny) (skip : Nat) (st : St) : Error × St :=
  match e with
  | .errv (.errp g) => (g, st)
  | .errv .nil =>
      let r := fmtErrorf "%v" ["<nil>"] st
      let i := newid r.2
      (.mk i.2.nextAddr r.1 (2 + skip) "" i.1, ⟨i.2.nextAddr + 1, i.2.errid⟩)
  | .errv v =>
      let i := newid st
      (.mk i.2.nextAddr v (2 + skip) "" i.1, ⟨i.2.nextAddr + 1, i.2.errid⟩)
  | .nonError s =>
      let r := fmtErrorf "%v" [s] st
      let i := newid r.2
      (.mk i.2.nextAddr r.1 (2 + skip) "" i.1, ⟨i.2.nextAddr + 1, i.2.errid⟩)

/-- Embeds `Errorf` (lines 196-198): `Wrap(fmt.Errorf(format, a...), 1)`. -/
def Errorf (format : String) (args : List String) (st : St) : Error × St :=
  let r := fmtErrorf format args st
  Wrap (.errv r.1) 1 r.2

/-- Embeds `Newf` (lines 253-260): allocates one id and closes over it. -/
def Newf (s : String) (st : St) : Errf × St :=
  let i := newid st
  (⟨s, i.1⟩, i.2)

/-- Embeds invoking the closure returned by `Newf` (lines 255-259):
`e := Errorf(s, args...); e.id = id; return e`. -/
def Errf.invoke (f : Errf) (args : List String) (st : St) : Error × St :=
  let r := Errorf f.fpattern args st
  (r.1.setId f.fid, r.2)

mutual
/-- Size of an `Error`, used as a fuel bound for the `Is` recursion. -/
def Error.size : Error → Nat
  | .mk _ e _ _ _ => 1 + e.size

/-- Size of an `ErrVal`, used as a fuel bound for the `Is` recursion.
The constants are chosen so that along every recursive call of
`IsFuel`/`ErrorsIsFuel`/`AnyIsFuel`/`AnyRevIsFuel` the relevant measure
(stated at each function) drops by at least one; supplying the measure of the
arguments as fuel therefore makes the fuel-exhaustion branches unreachable. -/
def ErrVal.size : ErrVal → Nat
  | .nil => 1
  | .plain _ _ _ => 1
  | .errp g => 1 + g.size
  | .errsp _ el => 3 + sizeL el
  | .errf _ _ => 4

/-- Size of a `List Error`, used as a fuel bound for the `Is` recursion. -/
def sizeL : List Error → Nat
  | [] => 0
  | g :: r => 3 + g.size + sizeL r
end

mutual
/-- Embeds `Is` (lines 160-191), with a fuel argument making the recursion
structural. `Is(te(), original)` and `Is(e, te())` invoke the factory closure,
which allocates, so the global state is threaded through. The source recursion
is bounded (measure: `e.size + original.size`); `Is` below supplies that
measure as fuel, so the `0` branch is never taken. -/
def IsFuel : Nat → ErrVal → ErrVal → St → Bool × St
  | 0, _, _, st => (false, st)
  | fuel + 1, e, original, st =>
    -- line 161: if e == original { return true }
    if goEq e original then (true, st)
    else
    match e with
    | .errf fid fpat =>
        -- lines 164-166: if te, ok := e.(Errf); ok { return Is(te(), original) }
        let r := Errf.invoke ⟨fpat, fid⟩ [] st
        IsFuel fuel (.errp r.1) original r.2
    | _ =>
    match original with
    | .errf fid fpat =>
        -- lines 167-169: if te, ok := original.(Errf); ok { return Is(e, te()) }
        let r := Errf.invoke ⟨fpat, fid⟩ [] st
        IsFuel fuel e (.errp r.1) r.2
    | _ =>
      -- lines 170-181: unwrap an *Error on the left, else on the right
      let r1 : Bool × St :=
        match e, original with
        | .errp ee, _ => IsFuel fuel ee.Err original st
        | _, .errp oo => IsFuel fuel e oo.Err st
        | _, _ => (false, st)
      if r1.1 then (true, r1.2)
      else
        -- lines 182-188: id comparison, else *Errors containment either side
        match e, original with
        | .errp ee, .errp oo =>
            if ee.id != 0 then ((ee.id == oo.id), r1.2) else (false, r1.2)
        | .errsp a el, _ => ErrorsIsFuel fuel (some ⟨a, el⟩) original r1.2
        | _, .errsp a el => ErrorsIsFuel fuel (some ⟨a, el⟩) e r1.2
        | _, _ => (false, r1.2)

/-- Embeds the method `(*Errors).Is` (third file, lines 471-491); `none`
models a nil `*Errors` receiver. Measure: `2 + sizeL receiver.errs + ee.size`
(receiver `none`: `1`). -/
def ErrorsIsFuel : Nat → Option Errors → ErrVal → St → Bool × St
  | 0, _, _, st => (false, st)
  | fuel + 1, e, ee, st =>
    match e, ee with
    | none, .nil => (true, st)      -- e == nil && ee == nil
    | none, _ => (false, st)        -- e == nil || ee == nil
    | some _, .nil => (false, st)
    | some s, .errsp _ el =>
        -- ee is an *Errors: for each of its elements, e.Is(err)
        AnyRevIsFuel fuel s el st
    | some s, other =>
        -- otherwise: for each element of e, Is(err, ee)
        AnyIsFuel fuel s.errs other st

/-- The `for _, err := range e.errs { if Is(err, ee) ... }` loop of
`(*Errors).Is`, short-circuiting and threading state.
Measure: `1 + sizeL elems + ee.size`. -/
def AnyIsFuel : Nat → List Error → ErrVal → St → Bool × St
  | 0, _, _, st => (false, st)
  | _ + 1, [], _, st => (false, st)
  | fuel + 1, g :: rest, ee, st =>
      let r := IsFuel fuel (.errp g) ee st
      if r.1 then (true, r.2) else AnyIsFuel fuel rest ee r.2

/-- The `for _, err := range errs.errs { if e.Is(err) ... }` loop of
`(*Errors).Is`, short-circuiting and threading state.
Measure: `1 + sizeL s.errs + sizeL elems`. -/
def AnyRevIsFuel : Nat → Errors → List Error → St → Bool × St
  | 0, _, _, st => (false, st)
  | _ + 1, _, [], st => (false, st)
  | fuel + 1, s, g :: rest, st =>
      let r := ErrorsIsFuel fuel (some s) (.errp g) st
      if r.1 then (true, r.2) else AnyRevIsFuel fuel s rest r.2
end

/-- `Is(e, original)` (lines 160-191) with adequate fuel. -/
def Is (e original : ErrVal) (st : St) : Bool × St :=
  IsFuel (e.size + original.size) e original st

/-- Embeds the method `(*Errors).Add` (third file, lines 411-438); `none`
models a nil receiver, which the method replaces by a fresh allocation. The
method mutates the receiver slice in place and returns the receiver, so the
result keeps the receiver's address. The glog call is observational only and
is not modelled. A typed-nil `*Errors` argument would make the source panic
(range over a nil pointer's field) and is outside the model. -/
def ErrorsAdd (e : Option Errors) (ee : GoAny) (st : St) : ErrVal × St :=
  match ee with
  | .errv .nil =>
      -- ee == nil: fall through to `else if e == nil { return nil }; return e`
      match e with
      | none => (.nil, st)
      | some s => (.errsp s.addr s.errs, st)
  | _ =>
      -- if e == nil { e = &Errors{errs: make([]*Error, 0)} }
      let p : Errors × St :=
        match e with
        | none => (⟨st.nextAddr, []⟩, ⟨st.nextAddr + 1, st.errid⟩)
        | some s => (s, st)
      match ee with
      | .errv (.errp g) =>
          -- case *Error: e.errs = append(e.errs, ee)
          (.errsp p.1.addr (p.1.errs ++ [g]), p.2)
      | .errv (.errsp _ el) =>
          -- case *Errors: append each element in order
          (.errsp p.1.addr (p.1.errs ++ el), p.2)
      | _ =>
          -- default: err = NewError(ee); append err.(*Error)
          let n := NewError ee p.2
          (.errsp p.1.addr (p.1.errs ++ [n.1]), n.2)

/-- Embeds `New` (third file, lines 494-501): nil gives nil, otherwise a fresh
empty `*Errors` with the argument added. -/
def New (err : GoAny) (st : St) : ErrVal × St :=
  match err with
  | .errv .nil => (.nil, st)
  | _ => ErrorsAdd (some ⟨st.nextAddr, []⟩) err ⟨st.nextAddr + 1, st.errid⟩

/-- Embeds the top-level `Add` (third file, lines 396-406). In the `*Error`
case the source builds a fresh empty `*Errors`, adds the first operand through
`(*Errors).Add` and casts the result back with `.(*Errors)` (the cast cannot
fail there: adding a non-nil `*Error` always returns the receiver). -/
def Add (e ee : GoAny) (st : St) : ErrVal × St :=
  match e with
  | .errv (.errsp a el) => ErrorsAdd (some ⟨a, el⟩) ee st
  | .errv (.errp g) =>
      let r := ErrorsAdd (some ⟨st.nextAddr, []⟩) (.errv (.errp g)) ⟨st.nextAddr + 1, st.errid⟩
      match r.1 with
      | .errsp b el2 => ErrorsAdd (some ⟨b, el2⟩) ee r.2
      | other => (other, r.2)
  | _ => New ee st

/-- Embeds `IsFunc` (isfunc.go, lines 26-40). The predicate `fn` is the
external OS-predicate collaborator, a boolean function on `error` values. -/
def IsFunc (fn : ErrVal → Bool) (err : ErrVal) : Bool :=
  match err with
  | .errp g => fn g.Err
  | .errsp _ elems => elems.any fun g => fn g.Err
  | _ => fn err

/-- Monotone progress of the global state: one program point happens after
another in the same execution (the allocator and `errid` counters only grow). -/
def St.le (s t : St) : Prop := s.nextAddr ≤ t.nextAddr ∧ s.errid ≤ t.errid

/-- The `error` values `v` for which `Is(Wrap(v, skip), v)` holds: `v` is not
the nil interface, not itself an `*Error` (then `Wrap` returns it unchanged and
the question degenerates), and a factory closure must carry the nonzero tag
that `Newf` always assigns in a real execution (`errid` starts at 1). -/
def ErrVal.wrapArgOk : ErrVal → Bool
  | .nil => false
  | .errp _ => false
  | .errf fid _ => fid != 0
  | _ => true

/-! ## Theorems -/

/-- Shape of one factory invocation. -/
theorem errf_invoke_eq (f : Errf) (args : List String) (st : St) :
    Errf.invoke f args st
      = (.mk (st.nextAddr + 1) (.plain st.nextAddr f.fpattern args) 3 "" f.fid,
         ⟨st.nextAddr + 2, st.errid + 1⟩) := rfl

/-- Shape of Newf. -/
theorem newf_eq (s : String) (st : St) :
    Newf s st = (⟨s, st.errid⟩, ⟨st.nextAddr, st.errid + 1⟩) := rfl

/-- `Is` on two *Error values wrapping distinct plain errors reduces to the id
comparison of line 182-183. -/
theorem isFuel_errp_plain (m a b pa pb : Nat) (f g : String) (x y : List String)
    (k k2 : Nat) (p p2 : String) (i j : Nat) (st : St)
    (hab : a ≠ b) (hp : pa ≠ pb) :
    IsFuel (m + 3) (.errp (.mk a (.plain pa f x) k p i))
      (.errp (.mk b (.plain pb g y) k2 p2 j)) st
      = (if i != 0 then (i == j) else false, st) := by
  have h1 : (a == b) = false := by simpa using hab
  have h2 : (pa == pb) = false := by simpa using hp
  simp [IsFuel, goEq, Error.addr, Error.Err, Error.id, h1, h2]
  by_cases hi : i = 0 <;> simp [hi]

/-- Structural unwrap: an *Error is `Is`-equal to the value it directly wraps,
whenever Go's interface equality is reflexive on that value and the wrapper is
a distinct interface value. -/
theorem isFuel_unwrap_refl (m a k : Nat) (p : String) (i : Nat) (v : ErrVal) (st : St)
    (h1 : goEq (.errp (.mk a v k p i)) v = false) (h2 : goEq v v = true) :
    IsFuel (m + 2) (.errp (.mk a v k p i)) v st = (true, st) := by
  cases v with
  | errf fid fpat => simp [goEq] at h2
  | nil => simp [IsFuel, goEq, Error.Err, h1, h2]
  | plain pa f xs => simp [IsFuel, goEq, Error.Err, h1, h2]
  | errp g => simp [IsFuel, goEq, Error.Err, h1, h2]
  | errsp aa el => simp [IsFuel, goEq, Error.Err, h1, h2]

/-- An *Error wrapping a factory closure is `Is`-equal to that closure when
the factory tag is nonzero. -/
theorem isFuel_wrap_errf (m a k : Nat) (p : String) (n fid : Nat) (fpat : String) (st : St)
    (hfid : fid ≠ 0) :
    (IsFuel (m + 6) (.errp (.mk a (.errf fid fpat) k p n)) (.errf fid fpat) st).1 = true := by
  have h31 : ((st.nextAddr + 3 : Nat) == st.nextAddr + 1) = false := by simp
  have h20 : ((st.nextAddr + 2 : Nat) == st.nextAddr) = false := by simp
  have hf : (fid != 0) = true := by simpa using hfid
  by_cases ha : a = st.nextAddr + 1
  · simp [IsFuel, goEq, Error.addr, Error.Err, Error.id, Errf.invoke, Errorf,
      fmtErrorf, Wrap, Error.setId, newid, ha, h31, h20, hf]
  · have ha2 : (a == st.nextAddr + 1) = false := by simpa using ha
    simp [IsFuel, goEq, Error.addr, Error.Err, Error.id, Errf.invoke, Errorf,
      fmtErrorf, Wrap, Error.setId, newid, ha2, h31, h20, hf]

/-- `Is` at the level of the fuel wrapper: two *Error values wrapping distinct
plain formatted errors compare by id (lines 182-183). -/
theorem is_errp_plain (a b pa pb : Nat) (f g : String) (x y : List String)
    (k k2 : Nat) (p p2 : String) (i j : Nat) (st : St)
    (hab : a ≠ b) (hp : pa ≠ pb) :
    Is (.errp (.mk a (.plain pa f x) k p i))
      (.errp (.mk b (.plain pb g y) k2 p2 j)) st
      = (if i != 0 then (i == j) else false, st) := by
  have hsz : ErrVal.size (.errp (.mk a (.plain pa f x) k p i))
      + ErrVal.size (.errp (.mk b (.plain pb g y) k2 p2 j)) = 3 + 3 := rfl
  unfold Is
  rw [hsz, isFuel_errp_plain 3 a b pa pb f g x y k k2 p p2 i j st hab hp]

/-- `Is` structurally unwraps: an *Error is identity-equal to the value it
directly wraps whenever interface equality is reflexive on that value. -/
theorem is_unwrap_refl (a k : Nat) (p : String) (i : Nat) (v : ErrVal) (st : St)
    (h1 : goEq (.errp (.mk a v k p i)) v = false) (h2 : goEq v v = true) :
    Is (.errp (.mk a v k p i)) v st = (true, st) := by
  obtain ⟨m, hm⟩ : ∃ m, ErrVal.size (.errp (.mk a v k p i)) + ErrVal.size v = m + 2 := by
    have hv : ErrVal.size (.errp (.mk a v k p i)) = 1 + (1 + ErrVal.size v) := rfl
    exact ⟨ErrVal.size v + ErrVal.size v, by omega⟩
  unfold Is
  rw [hm]
  exact isFuel_unwrap_refl m a k p i v st h1 h2

/-- `Is` on an *Error wrapping a factory closure against that closure: true
whenever the factory tag is nonzero. -/
theorem is_wrap_errf (a k : Nat) (p : String) (n fid : Nat) (fpat : String) (st : St)
    (hfid : fid ≠ 0) :
    (Is (.errp (.mk a (.errf fid fpat) k p n)) (.errf fid fpat) st).1 = true := by
  have hsz : ErrVal.size (.errp (.mk a (.errf fid fpat) k p n))
      + ErrVal.size (.errf fid fpat) = 4 + 6 := rfl
  unfold Is
  rw [hsz]
  exact isFuel_wrap_errf 4 a k p n fid fpat st hfid

/-- C1: for every factory `f` returned by `Newf(pattern)` and all argument
lists `x`, `y`, `Is(f(x), f(y))` is true. `st0` is the state at the `Newf`
call, `st1`/`st2` the states at the two invocations (the second no earlier
than the end of the first), `st3` the state at the comparison; `errid` starts
at 1 and only grows, hence `1 ≤ st0.errid`. -/
theorem newf_invocations_identity_equal (p : String) (x y : List String)
    (st0 st1 st2 st3 : St) (h0 : 1 ≤ st0.errid)
    (h2 : St.le (Errf.invoke (Newf p st0).1 x st1).2 st2) :
    (Is (.errp (Errf.invoke (Newf p st0).1 x st1).1)
        (.errp (Errf.invoke (Newf p st0).1 y st2).1) st3).1 = true := by
  have hA : st1.nextAddr + 2 ≤ st2.nextAddr := h2.1
  have hab : st1.nextAddr + 1 ≠ st2.nextAddr + 1 := by omega
  have hp : st1.nextAddr ≠ st2.nextAddr := by omega
  have hi : st0.errid ≠ 0 := by omega
  show (Is (.errp (.mk (st1.nextAddr + 1) (.plain st1.nextAddr p x) 3 "" st0.errid))
      (.errp (.mk (st2.nextAddr + 1) (.plain st2.nextAddr p y) 3 "" st0.errid)) st3).1 = true
  rw [is_errp_plain _ _ _ _ _ _ _ _ _ _ _ _ _ _ st3 hab hp]
  have hbne : (st0.errid != 0) = true := by simpa using hi
  simp [hbne]

/-- C4: invocations of two distinct factories built from the same pattern are
never identity-equal: each `Newf` call allocates its own tag. `st0`/`st1` are
the states at the two `Newf` calls (the second after the first), `st2`/`st3`
the states at the two invocations. -/
theorem distinct_factories_never_identity_equal (p : String) (x : List String)
    (st0 st1 st2 st3 st4 : St)
    (h1 : St.le (Newf p st0).2 st1)
    (h3 : St.le (Errf.invoke (Newf p st0).1 x st2).2 st3) :
    (Is (.errp (Errf.invoke (Newf p st0).1 x st2).1)
        (.errp (Errf.invoke (Newf p st1).1 x st3).1) st4).1 = false := by
  have hI : st0.errid + 1 ≤ st1.errid := h1.2
  have hA : st2.nextAddr + 2 ≤ st3.nextAddr := h3.1
  have hab : st2.nextAddr + 1 ≠ st3.nextAddr + 1 := by omega
  have hp : st2.nextAddr ≠ st3.nextAddr := by omega
  show (Is (.errp (.mk (st2.nextAddr + 1) (.plain st2.nextAddr p x) 3 "" st0.errid))
      (.errp (.mk (st3.nextAddr + 1) (.plain st3.nextAddr p x) 3 "" st1.errid)) st4).1 = false
  rw [is_errp_plain _ _ _ _ _ _ _ _ _ _ _ _ _ _ st4 hab hp]
  have hne : (st0.errid == st1.errid) = false := by
    simpa using (by omega : st0.errid ≠ st1.errid)
  simp [hne]

/-- Witness for C1 at concrete inputs: the factory is created at process
start, invoked twice in sequence, and the results compared. -/
theorem newf_invocations_identity_equal_witness :
    (1 ≤ initSt.errid
      ∧ St.le (Errf.invoke (Newf "oh %s" initSt).1 ["a"] (Newf "oh %s" initSt).2).2
          (Errf.invoke (Newf "oh %s" initSt).1 ["a"] (Newf "oh %s" initSt).2).2)
  ∧ (Is (.errp (Errf.invoke (Newf "oh %s" initSt).1 ["a"] (Newf "oh %s" initSt).2).1)
        (.errp (Errf.invoke (Newf "oh %s" initSt).1 ["b"]
          (Errf.invoke (Newf "oh %s" initSt).1 ["a"] (Newf "oh %s" initSt).2).2).1)
        ⟨9, 9⟩).1 = true :=
  ⟨⟨by decide, ⟨by decide, by decide⟩⟩,
    newf_invocations_identity_equal "oh %s" ["a"] ["b"] initSt (Newf "oh %s" initSt).2
      (Errf.invoke (Newf "oh %s" initSt).1 ["a"] (Newf "oh %s" initSt).2).2 ⟨9, 9⟩
      (by decide) ⟨by decide, by decide⟩⟩

/-- Witness for C4 at concrete inputs: two factories from the same pattern
created in sequence, each invoked once. -/
theorem distinct_factories_never_identity_equal_witness :
    (St.le (Newf "oh %s" initSt).2 (Newf "oh %s" initSt).2
      ∧ St.le (Errf.invoke (Newf "oh %s" initSt).1 ["a"] (Newf "oh %s" (Newf "oh %s" initSt).2).2).2
          (Errf.invoke (Newf "oh %s" initSt).1 ["a"] (Newf "oh %s" (Newf "oh %s" initSt).2).2).2)
  ∧ (Is (.errp (Errf.invoke (Newf "oh %s" initSt).1 ["a"]
          (Newf "oh %s" (Newf "oh %s" initSt).2).2).1)
        (.errp (Errf.invoke (Newf "oh %s" (Newf "oh %s" initSt).2).1 ["a"]
          (Errf.invoke (Newf "oh %s" initSt).1 ["a"] (Newf "oh %s" (Newf "oh %s" initSt).2).2).2).1)
        ⟨9, 9⟩).1 = false :=
  ⟨⟨⟨by decide, by decide⟩, ⟨by decide, by decide⟩⟩,
    distinct_factories_never_identity_equal "oh %s" ["a"] initSt (Newf "oh %s" initSt).2
      (Newf "oh %s" (Newf "oh %s" initSt).2).2
      (Errf.invoke (Newf "oh %s" initSt).1 ["a"] (Newf "oh %s" (Newf "oh %s" initSt).2).2).2 ⟨9, 9⟩
      ⟨by decide, by decide⟩ ⟨by decide, by decide⟩⟩

/-- Counterexample to C2 as stated: at process start, the *Error returned by
`Errorf("boom")` carries id 1, not a zero/absent identity tag. -/
theorem errorf_zero_tag_cex : ¬ (Errorf "boom" [] initSt).1.id = 0 := by decide

/-- C2 (amended): `Errorf(format, args...)` builds a message-only failure by
formatting the arguments into the pattern and wraps it one frame above the
caller (`runtime.Callers(2+1, ...)`), assigning a freshly allocated nonzero
identity tag (the next `errid`), not a zero/absent one. -/
theorem errorf_assigns_fresh_nonzero_tag (format : String) (args : List String)
    (st : St) (h : 1 ≤ st.errid) :
    (Errorf format args st).1.Err = .plain st.nextAddr format args
  ∧ (Errorf format args st).1.stackSkip = 3
  ∧ (Errorf format args st).1.pfx = ""
  ∧ (Errorf format args st).1.id = st.errid
  ∧ (Errorf format args st).1.id ≠ 0
  ∧ (Errorf format args st).2 = ⟨st.nextAddr + 2, st.errid + 1⟩ :=
  ⟨rfl, rfl, rfl, rfl, by show st.errid ≠ 0; omega, rfl⟩

/-- Witness for C2 (amended) at concrete inputs. -/
theorem errorf_assigns_fresh_nonzero_tag_witness :
    (1 ≤ initSt.errid)
  ∧ ((Errorf "boom" ["x"] initSt).1.Err = .plain initSt.nextAddr "boom" ["x"]
      ∧ (Errorf "boom" ["x"] initSt).1.stackSkip = 3
      ∧ (Errorf "boom" ["x"] initSt).1.pfx = ""
      ∧ (Errorf "boom" ["x"] initSt).1.id = initSt.errid
      ∧ (Errorf "boom" ["x"] initSt).1.id ≠ 0
      ∧ (Errorf "boom" ["x"] initSt).2 = ⟨initSt.nextAddr + 2, initSt.errid + 1⟩) :=
  ⟨by decide, errorf_assigns_fresh_nonzero_tag "boom" ["x"] initSt (by decide)⟩

/-- Counterexample to C3 as stated: for `v = nil` (a value that is not an
*Error), `Is(Wrap(nil, 0), nil)` is false — `Wrap` stores the converted error
`fmt.Errorf("%v", nil)`, not nil itself. -/
theorem wrap_nil_not_is_nil_cex :
    (Is (.errp (Wrap (.errv .nil) 0 initSt).1) .nil (Wrap (.errv .nil) 0 initSt).2).1
      = false := by decide

/-- C3 (amended): for every non-nil value `v` that is not itself an *Error
(and, when `v` is a factory closure, carrying the nonzero tag `Newf` assigns),
`Is(Wrap(v, skip), v)` is true: structural unwrapping (steps 3-4) takes
priority over tag comparison (step 5). -/
theorem is_wrap_value_true (v : ErrVal) (skip : Nat) (st st2 : St)
    (h : v.wrapArgOk = true) :
    (Is (.errp (Wrap (.errv v) skip st).1) v st2).1 = true := by
  cases v with
  | nil => simp [ErrVal.wrapArgOk] at h
  | errp g => simp [ErrVal.wrapArgOk] at h
  | plain pa f xs =>
      show (Is (.errp (.mk st.nextAddr (.plain pa f xs) (2 + skip) "" st.errid))
        (.plain pa f xs) st2).1 = true
      rw [is_unwrap_refl st.nextAddr (2 + skip) "" st.errid (.plain pa f xs) st2
        (by simp [goEq]) (by simp [goEq])]
  | errsp q el =>
      show (Is (.errp (.mk st.nextAddr (.errsp q el) (2 + skip) "" st.errid))
        (.errsp q el) st2).1 = true
      rw [is_unwrap_refl st.nextAddr (2 + skip) "" st.errid (.errsp q el) st2
        (by simp [goEq]) (by simp [goEq])]
  | errf fid fpat =>
      have hfid : fid ≠ 0 := by simpa [ErrVal.wrapArgOk] using h
      show (Is (.errp (.mk st.nextAddr (.errf fid fpat) (2 + skip) "" st.errid))
        (.errf fid fpat) st2).1 = true
      exact is_wrap_errf _ _ _ _ _ _ st2 hfid

/-- Witness for C3 (amended) at concrete inputs (a plain error value). -/
theorem is_wrap_value_true_witness :
    (ErrVal.wrapArgOk (.plain 0 "m" []) = true)
  ∧ (Is (.errp (Wrap (.errv (.plain 0 "m" [])) 0 ⟨3, 5⟩).1) (.plain 0 "m" []) ⟨4, 6⟩).1
      = true :=
  ⟨by decide, is_wrap_value_true (.plain 0 "m" []) 0 ⟨3, 5⟩ ⟨4, 6⟩ (by decide)⟩

/-- C5: `Wrap` is idempotent in the strong sense. If the value is already an
*Error, `Wrap` returns that very instance (same address, no allocation, no id
consumed), so wrapping a wrapped value returns the first wrap unchanged. -/
theorem wrap_idempotent :
    (∀ (g : Error) (skip : Nat) (st : St), Wrap (.errv (.errp g)) skip st = (g, st))
  ∧ (∀ (v : GoAny) (skip skip2 : Nat) (st : St),
      Wrap (.errv (.errp (Wrap v skip st).1)) skip2 (Wrap v skip st).2 = Wrap v skip st) :=
  ⟨fun _ _ _ => rfl, fun _ _ _ _ => rfl⟩

/-- C6: the top-level `Add(a, b)` is asymmetric: an *Errors first operand
receives `b` via `(*Errors).Add`; an *Error first operand is put into a fresh
*Errors which then receives `b`; any other first operand (nil, a plain error,
a factory closure, a non-error value) is discarded entirely and the result is
`New(b)`. -/
theorem add_top_level_cases :
    (∀ (a : Nat) (el : List Error) (b : GoAny) (st : St),
        Add (.errv (.errsp a el)) b st = ErrorsAdd (some ⟨a, el⟩) b st)
  ∧ (∀ (g : Error) (b : GoAny) (st : St),
        Add (.errv (.errp g)) b st
          = ErrorsAdd (some ⟨st.nextAddr, [g]⟩) b ⟨st.nextAddr + 1, st.errid⟩)
  ∧ (∀ (b : GoAny) (st : St), Add (.errv .nil) b st = New b st)
  ∧ (∀ (pa : Nat) (f : String) (xs : List String) (b : GoAny) (st : St),
        Add (.errv (.plain pa f xs)) b st = New b st)
  ∧ (∀ (fid : Nat) (fpat : String) (b : GoAny) (st : St),
        Add (.errv (.errf fid fpat)) b st = New b st)
  ∧ (∀ (v : String) (b : GoAny) (st : St), Add (.nonError v) b st = New b st) :=
  ⟨fun _ _ _ _ => rfl, fun _ _ _ => rfl, fun _ _ => rfl,
   fun _ _ _ _ _ => rfl, fun _ _ _ _ => rfl, fun _ _ _ => rfl⟩

/-- C7: adding an *Errors into an *Errors appends its elements in order
(flattening): the result is the receiver's elements followed by the argument's
elements, so the count is `|A| + |B.errs|`; moreover the result of any add is
nil or an *Errors whose elements are *Error values (never a nested *Errors —
the slice is typed `[]*Error`). -/
theorem errors_add_flattens :
    (∀ (A B : Errors) (st : St),
        ErrorsAdd (some A) (.errv (.errsp B.addr B.errs)) st
          = (.errsp A.addr (A.errs ++ B.errs), st))
  ∧ (∀ (A B : Errors) (st : St),
        ((ErrorsAdd (some A) (.errv (.errsp B.addr B.errs)) st).1
            = .errsp A.addr (A.errs ++ B.errs)
          ∧ (A.errs ++ B.errs).length = A.errs.length + B.errs.length))
  ∧ (∀ (oe : Option Errors) (ee : GoAny) (st : St),
        (ErrorsAdd oe ee st).1 = .nil
          ∨ ∃ a el, (ErrorsAdd oe ee st).1 = .errsp a el) := by
  refine ⟨fun A B st => rfl, fun A B st => ⟨rfl, A.errs.length_append B.errs⟩,
    fun oe ee st => ?_⟩
  match oe, ee with
  | none, .errv .nil => exact Or.inl rfl
  | some s, .errv .nil => exact Or.inr ⟨s.addr, s.errs, rfl⟩
  | none, .errv (.errp g) => exact Or.inr ⟨_, _, rfl⟩
  | some s, .errv (.errp g) => exact Or.inr ⟨_, _, rfl⟩
  | none, .errv (.errsp a el) => exact Or.inr ⟨_, _, rfl⟩
  | some s, .errv (.errsp a el) => exact Or.inr ⟨_, _, rfl⟩
  | none, .errv (.plain pa f xs) => exact Or.inr ⟨_, _, rfl⟩
  | some s, .errv (.plain pa f xs) => exact Or.inr ⟨_, _, rfl⟩
  | none, .errv (.errf fid fpat) => exact Or.inr ⟨_, _, rfl⟩
  | some s, .errv (.errf fid fpat) => exact Or.inr ⟨_, _, rfl⟩
  | none, .nonError v => exact Or.inr ⟨_, _, rfl⟩
  | some s, .nonError v => exact Or.inr ⟨_, _, rfl⟩

/-- C8: appending nil is a no-op: a non-nil *Errors receiver is returned with
the same address and the same elements; a nil receiver yields nil; and
`New(nil)` is nil. -/
theorem errors_add_nil_noop :
    (∀ (s : Errors) (st : St),
        ErrorsAdd (some s) (.errv .nil) st = (.errsp s.addr s.errs, st))
  ∧ (∀ (st : St), ErrorsAdd none (.errv .nil) st = (.nil, st))
  ∧ (∀ (st : St), New (.errv .nil) st = (.nil, st)) :=
  ⟨fun _ _ => rfl, fun _ => rfl, fun _ => rfl⟩

/-- C9: `IsFunc(fn, err)` dispatches on the dynamic type of `err`: for an
*Error it applies `fn` to the underlying `Err` field; for an *Errors it holds
exactly when `fn` accepts some element's underlying `Err` field (the loop
short-circuits on the first match in insertion order); for anything else it
applies `fn` to `err` directly. -/
theorem isFunc_dispatch :
    (∀ (fn : ErrVal → Bool) (g : Error), IsFunc fn (.errp g) = fn g.Err)
  ∧ (∀ (fn : ErrVal → Bool) (a : Nat) (el : List Error),
        (IsFunc fn (.errsp a el) = true ↔ ∃ g ∈ el, fn g.Err = true))
  ∧ (∀ (fn : ErrVal → Bool), IsFunc fn .nil = fn .nil)
  ∧ (∀ (fn : ErrVal → Bool) (pa : Nat) (f : String) (xs : List String),
        IsFunc fn (.plain pa f xs) = fn (.plain pa f xs))
  ∧ (∀ (fn : ErrVal → Bool) (fid : Nat) (fpat : String),
        IsFunc fn (.errf fid fpat) = fn (.errf fid fpat)) := by
  refine ⟨fun _ _ => rfl, fun fn a el => ?_, fun _ => rfl, fun _ _ _ _ => rfl,
    fun _ _ _ => rfl⟩
  simp [IsFunc, List.any_eq_true]

/-- C10: `NewError` is not idempotent, unlike `Wrap`: applied to a value that
is already an *Error it allocates a new, distinct *Error (fresh address) whose
`Err` field is the argument itself and whose id is freshly allocated; still,
`Is(NewError(e), e)` is true via structural unwrapping. `g.addr < st.nextAddr`
says the argument was allocated before this call. -/
theorem newError_double_wraps (g : Error) (st st2 : St) (h : g.addr < st.nextAddr) :
    (NewError (.errv (.errp g)) st).1.Err = .errp g
  ∧ (NewError (.errv (.errp g)) st).1.id = st.errid
  ∧ (NewError (.errv (.errp g)) st).1.addr = st.nextAddr
  ∧ (NewError (.errv (.errp g)) st).1.addr ≠ g.addr
  ∧ (NewError (.errv (.errp g)) st).2 = ⟨st.nextAddr + 1, st.errid + 1⟩
  ∧ (Is (.errp (NewError (.errv (.errp g)) st).1) (.errp g) st2).1 = true := by
  obtain ⟨ga, gE, gsk, gp, gi⟩ := g
  have h2 : ga < st.nextAddr := h
  refine ⟨rfl, rfl, rfl, ?_, rfl, ?_⟩
  · show st.nextAddr ≠ ga
    omega
  · show (Is (.errp (.mk st.nextAddr (.errp (.mk ga gE gsk gp gi)) 2 "" st.errid))
      (.errp (.mk ga gE gsk gp gi)) st2).1 = true
    rw [is_unwrap_refl st.nextAddr 2 "" st.errid (.errp (.mk ga gE gsk gp gi)) st2
      (by simp [goEq, Error.addr]; omega) (by simp [goEq])]

/-- Witness for C10 at concrete inputs. -/
theorem newError_double_wraps_witness :
    ((Error.mk 0 .nil 2 "" 1).addr < (⟨1, 2⟩ : St).nextAddr)
  ∧ ((NewError (.errv (.errp (.mk 0 .nil 2 "" 1))) ⟨1, 2⟩).1.Err = .errp (.mk 0 .nil 2 "" 1)
      ∧ (NewError (.errv (.errp (.mk 0 .nil 2 "" 1))) ⟨1, 2⟩).1.id = (⟨1, 2⟩ : St).errid
      ∧ (NewError (.errv (.errp (.mk 0 .nil 2 "" 1))) ⟨1, 2⟩).1.addr = (⟨1, 2⟩ : St).nextAddr
      ∧ (NewError (.errv (.errp (.mk 0 .nil 2 "" 1))) ⟨1, 2⟩).1.addr ≠ (Error.mk 0 .nil 2 "" 1).addr
      ∧ (NewError (.errv (.errp (.mk 0 .nil 2 "" 1))) ⟨1, 2⟩).2 = ⟨(⟨1, 2⟩ : St).nextAddr + 1, (⟨1, 2⟩ : St).errid + 1⟩
      ∧ (Is (.errp (NewError (.errv (.errp (.mk 0 .nil 2 "" 1))) ⟨1, 2⟩).1)
          (.errp (.mk 0 .nil 2 "" 1)) ⟨7, 7⟩).1 = true) :=
  ⟨by decide, newError_double_wraps (.mk 0 .nil 2 "" 1) ⟨1, 2⟩ ⟨7, 7⟩ (by decide)⟩

end errors
